import Mathlib

/-!
Shallow embedding of the pharmacy multi-agent order pipeline
(`backend/database.py`, `backend/agents/*.py`, `backend/observability/trace_logger.py`).

Conventions of the embedding:
* The medicine master CSV and the order-history CSV become in-memory lists
  carried explicitly through each operation (`List Medicine`, `List OrderRec`).
* Python `int` becomes `Int`; probabilistic (LLM) paths are out of scope, the
  deterministic regex fallback is embedded in full.
* Python `str.lower` is ASCII lowering, embedded with `Char.toLower`.
* Dates are rationals measured in days since an arbitrary epoch; `timedelta.days`
  (floor of the day difference) becomes `Int.floor`. Float arithmetic of the
  source is idealised as exact rational arithmetic; Python `round(x, 1)`
  (ties are negligible here) becomes `round1` below.
-/

namespace Pharma

/-! ### Character/string helpers shared by several agents -/

/-- ASCII lowering of a string, as a character list (Python `str.lower`). -/
def toLowerL (s : String) : List Char := s.data.map Char.toLower

/-- Case-insensitive equality of names (`df[...].str.lower() == name.lower()`). -/
def lowEq (a b : String) : Bool := toLowerL a == toLowerL b

/-- Substring containment (Python `needle in haystack`). -/
def containsSub (needle : List Char) : List Char → Bool
  | [] => needle.isEmpty
  | c :: rest => needle.isPrefixOf (c :: rest) || containsSub needle rest

/-! ### Data model (`database.py`) -/

/-- One row of `medicine_master.csv`. -/
structure Medicine where
  medicine_name : String
  unit_type : String
  stock_level : Int
  prescription_required : Bool
deriving DecidableEq, Repr

/-- One row of `order_history.csv`; `purchase_date` in days since epoch. -/
structure OrderRec where
  user_id : String
  medicine_name : String
  quantity : Int
  dosage_per_day : Int
  purchase_date : ℚ
deriving DecidableEq, Repr

/-- The two persistent tables of the system. -/
structure DB where
  catalog : List Medicine
  orders : List OrderRec
deriving DecidableEq, Repr

/-- `Database.get_medicine`: first row whose name matches case-insensitively. -/
def get_medicine (catalog : List Medicine) (name : String) : Option Medicine :=
  catalog.find? (fun m => lowEq m.medicine_name name)

/-- `Database.update_stock`: add `change` to the stock of `name`.
Fails (leaving the table unchanged) when the medicine is absent or the new
stock would be negative; on success every row matching the name (the `mask`)
receives the new stock value. Returns (success, updated catalog). -/
def update_stock (catalog : List Medicine) (name : String) (change : Int) :
    Bool × List Medicine :=
  match get_medicine catalog name with
  | none => (false, catalog)
  | some m =>
    let new_stock := m.stock_level + change
    if new_stock < 0 then (false, catalog)
    else
      (true, catalog.map (fun x =>
        if lowEq x.medicine_name name then { x with stock_level := new_stock } else x))

/-- `Database.save_order`: append one row to the order history.
The time-derived `ORD-...` identifier is not tracked beyond its prefix. -/
def save_order (orders : List OrderRec) (user_id medicine_name : String)
    (quantity dosage_per_day : Int) (now : ℚ) : List OrderRec :=
  orders ++ [{ user_id := user_id, medicine_name := medicine_name,
               quantity := quantity, dosage_per_day := dosage_per_day,
               purchase_date := now }]

/-- `Database.get_user_history`: rows of one user, in file order. -/
def get_user_history (orders : List OrderRec) (user_id : String) : List OrderRec :=
  orders.filter (fun o => o.user_id == user_id)

/-- `Database.search_medicine_fuzzy`: an exact case-insensitive match returns
that single name, otherwise all names containing the query as a substring. -/
def search_medicine_fuzzy (catalog : List Medicine) (query : List Char) : List String :=
  let names := catalog.map (·.medicine_name)
  match names.find? (fun m => toLowerL m == query) with
  | some m => [m]
  | none => names.filter (fun m => containsSub query (toLowerL m))

/-! ### Inventory agent (`agents/inventory_agent.py`) -/

/-- Metadata of `InventoryAgent.check_availability`. -/
structure AvailResult where
  is_available : Bool
  message : String
  shortage : Option Int
deriving DecidableEq, Repr

/-- `InventoryAgent.check_availability`: read-only comparison of stock and
requested quantity. -/
def check_availability (catalog : List Medicine) (name : String) (quantity : Int) :
    AvailResult :=
  match get_medicine catalog name with
  | none =>
    { is_available := false, message := "Medicine not found", shortage := none }
  | some m =>
    if m.stock_level < quantity then
      { is_available := false
        message := "Insufficient stock"
        shortage := some (quantity - m.stock_level) }
    else
      { is_available := true, message := "Stock available", shortage := none }

/-- `InventoryAgent._calculate_procurement_quantity`: order enough to reach
200 units, at least 100. -/
def calculate_procurement_quantity (current_stock : Int) : Int :=
  max 100 (200 - current_stock)

/-- The webhook payload of `InventoryAgent._trigger_warehouse_procurement`. -/
structure ProcurementSignal where
  requested_quantity : Int
  priority : String
deriving DecidableEq, Repr

/-- `InventoryAgent._trigger_warehouse_procurement` (payload construction). -/
def trigger_warehouse_procurement (current_stock : Int) : ProcurementSignal :=
  { requested_quantity := calculate_procurement_quantity current_stock
    priority := if current_stock < 20 then "high" else "normal" }

/-- Result of `InventoryAgent.deduct_stock`: success flag, updated catalog,
and the procurement signal fired when stock fell below the threshold. -/
structure DeductResult where
  success : Bool
  catalog : List Medicine
  signal : Option ProcurementSignal
deriving DecidableEq, Repr

/-- `InventoryAgent.deduct_stock` (threshold is `low_stock_threshold`, 50 by
default): re-reads the medicine, deducts through `update_stock` (which
re-validates sufficiency), then re-reads the new stock and fires the
warehouse procurement trigger when it fell below the threshold. -/
def deduct_stock (threshold : Int) (catalog : List Medicine) (name : String)
    (quantity : Int) : DeductResult :=
  match get_medicine catalog name with
  | none => { success := false, catalog := catalog, signal := none }
  | some _ =>
    match update_stock catalog name (-quantity) with
    | (false, _) => { success := false, catalog := catalog, signal := none }
    | (true, catalog1) =>
      let new_stock := ((get_medicine catalog1 name).map (·.stock_level)).getD 0
      { success := true
        catalog := catalog1
        signal :=
          if new_stock < threshold then some (trigger_warehouse_procurement new_stock)
          else none }

/-! ### Safety agent (`agents/safety_agent.py`) -/

/-- Outcome of `SafetyAgent.validate_order`: validity, reason, and the
`metadata` tag distinguishing the rejection causes. -/
structure SafetyDecision where
  is_valid : Bool
  reason : String
  error : Option String
deriving DecidableEq, Repr

/-- `SafetyAgent.validate_order` with `prescription_override` as it is at
construction time (`False`): unknown medicines are rejected with a
`medicine_not_found` tag, prescription medicines are rejected, anything else
is approved. -/
def validate_order (prescription_override : Bool) (catalog : List Medicine)
    (name : String) : SafetyDecision :=
  match get_medicine catalog name with
  | none =>
    { is_valid := false
      reason := "Medicine not found in database"
      error := some "medicine_not_found" }
  | some m =>
    if m.prescription_required && !prescription_override then
      { is_valid := false
        reason := "PRESCRIPTION REQUIRED: please provide a valid prescription"
        error := some "prescription_required" }
    else
      { is_valid := true, reason := "Order approved", error := none }

/-- `SafetyAgent.check_dosage_safety`: static threshold comparisons only.
Returns (is_safe, warning message). -/
def check_dosage_safety (dosage_per_day : Int) : Bool × String :=
  if dosage_per_day ≤ 0 then
    (false, "ERROR: Dosage must be at least 1 unit per day.")
  else if dosage_per_day > 10 then
    (false, "WARNING: Dosage of " ++ (toString dosage_per_day ++
      " units/day exceeds typical safe limits. Please consult a doctor."))
  else if dosage_per_day > 6 then
    (true, "NOTICE: High dosage (" ++ (toString dosage_per_day ++
      " units/day). Ensure this matches your prescription."))
  else
    (true, "")

/-! ### A stable sort (Python `list.sort` semantics, structurally recursive) -/

/-- Insert `x` after every already-placed element `y` with `le y x`; with a
total `le` this is the insertion step of a stable insertion sort. -/
def insertLe (le : α → α → Bool) (x : α) : List α → List α
  | [] => [x]
  | y :: ys => if le y x then y :: insertLe le x ys else x :: y :: ys

/-- Fold the remaining elements into an already sorted accumulator. -/
def sortFold (le : α → α → Bool) (acc : List α) : List α → List α
  | [] => acc
  | x :: xs => sortFold le (insertLe le x acc) xs

/-- Stable sort by the boolean relation `le` (model of Python `list.sort`). -/
def stableSort (le : α → α → Bool) (l : List α) : List α := sortFold le [] l

/-! ### Conversational agent, regex fallback
(`agents/conversational_agent.py`, `_extract_with_regex`)

Each Python regex from the source is embedded as a position-wise matcher
(`Option Nat` is the captured integer group) plus `reSearch`, which scans
positions left to right like `re.search`. The patterns all have the shape
digit-group/keyword followed by literal alternatives, for which greedy
matching without backtracking is complete. -/

/-- Value of a non-empty digit run (the `(\d+)` capture group). -/
def digitsToNat (ds : List Char) : Nat :=
  ds.foldl (fun n c => n * 10 + (c.toNat - 48)) 0

/-- Match `(\d+)` at the head: the captured value and the rest. -/
def matchDigits (cs : List Char) : Option (Nat × List Char) :=
  let ds := cs.takeWhile Char.isDigit
  if ds.isEmpty then none
  else some (digitsToNat ds, cs.dropWhile Char.isDigit)

/-- Consume `\s*`. -/
def skipWS (cs : List Char) : List Char := cs.dropWhile Char.isWhitespace

/-- Does any of the literal alternatives start here? -/
def matchAlts (alts : List String) (cs : List Char) : Bool :=
  alts.any (fun a => a.data.isPrefixOf cs)

/-- `(\d+)\s*(?:tablets?|capsules?|pills?|units?)` at the head. -/
def matchQtyUnits (cs : List Char) : Option Nat :=
  (matchDigits cs).bind (fun p =>
    if matchAlts ["tablet", "capsule", "pill", "unit"] (skipWS p.2) then some p.1 else none)

/-- `(\d+)\s*(?:of|x)` at the head. -/
def matchQtyOfX (cs : List Char) : Option Nat :=
  (matchDigits cs).bind (fun p =>
    if matchAlts ["of", "x"] (skipWS p.2) then some p.1 else none)

/-- `key[:\s]+(\d+)` at the head (used with `quantity` and `dosage`). -/
def matchKeyNum (key : String) (cs : List Char) : Option Nat :=
  if key.data.isPrefixOf cs then
    let rest := cs.drop key.length
    let rest2 := rest.dropWhile (fun c => c == ':' || c.isWhitespace)
    if rest2.length < rest.length then (matchDigits rest2).map (·.1) else none
  else none

/-- `(\d+)\s*days?\s*worth` at the head. -/
def matchQtyDaysWorth (cs : List Char) : Option Nat :=
  (matchDigits cs).bind (fun p =>
    let r := skipWS p.2
    if "day".data.isPrefixOf r then
      let r2 := r.drop 3
      let r3 := if "s".data.isPrefixOf r2 then r2.drop 1 else r2
      if "worth".data.isPrefixOf (skipWS r3) then some p.1 else none
    else none)

/-- `(\d+)\s*(?:per day|daily|times a day|times daily)` at the head. -/
def matchDosPerDay (cs : List Char) : Option Nat :=
  (matchDigits cs).bind (fun p =>
    if matchAlts ["per day", "daily", "times a day", "times daily"] (skipWS p.2) then some p.1
    else none)

/-- `(\d+)\s*(?:times?|x)\s*(?:per day|daily)` at the head. -/
def matchDosTimes (cs : List Char) : Option Nat :=
  (matchDigits cs).bind (fun p =>
    let r := skipWS p.2
    let afterTimes : Option (List Char) :=
      if "time".data.isPrefixOf r then
        let r2 := r.drop 4
        some (if "s".data.isPrefixOf r2 then r2.drop 1 else r2)
      else if "x".data.isPrefixOf r then some (r.drop 1)
      else none
    afterTimes.bind (fun r3 =>
      if matchAlts ["per day", "daily"] (skipWS r3) then some p.1 else none))

/-- `re.search`: try the matcher at each position, leftmost first. -/
def reSearch (f : List Char → Option Nat) : List Char → Option Nat
  | [] => f []
  | c :: rest =>
    match f (c :: rest) with
    | some n => some n
    | none => reSearch f rest

/-- The `quantity_patterns` loop: first pattern with a match wins. -/
def extract_quantity (msgL : List Char) : Option Nat :=
  reSearch matchQtyUnits msgL <|> reSearch matchQtyOfX msgL <|>
    reSearch (matchKeyNum "quantity") msgL <|> reSearch matchQtyDaysWorth msgL

/-- The `dosage_patterns` loop: first pattern with a match wins. -/
def extract_dosage (msgL : List Char) : Option Nat :=
  reSearch matchDosPerDay msgL <|> reSearch matchDosTimes msgL <|>
    reSearch (matchKeyNum "dosage") msgL

/-- The refill keywords of pattern 3. -/
def refill_keywords : List String := ["refill", "again", "same", "usual"]

/-- The refill branch: with a refill keyword present, reuse the name of the
user's most recent order (none when the history is empty). -/
def refill_match (history : List OrderRec) (msgL : List Char) : Option String :=
  if refill_keywords.any (fun k => containsSub k.data msgL) then
    (history.getLast?).map (·.medicine_name)
  else none

/-- Catalog names sorted by length, longest first (stable, like
`sort(key=len, reverse=True)`). -/
def sortLenDesc (names : List String) : List String :=
  stableSort (fun a b => decide (b.length ≤ a.length)) names

/-- The exact-substring branch: first (longest-first) catalog name contained
case-insensitively in the message. -/
def exact_match (catalog : List Medicine) (msgL : List Char) : Option String :=
  (sortLenDesc (catalog.map (·.medicine_name))).find?
    (fun m => containsSub (toLowerL m) msgL)

/-- `re.sub` of `\s*,\s*` by a single space: `pending` holds the whitespace
run seen so far, `afterComma` consumes the whitespace following a comma. -/
def subCommaAux (pending : List Char) (afterComma : Bool) : List Char → List Char
  | [] => pending.reverse
  | c :: rest =>
    if afterComma && c.isWhitespace then subCommaAux pending true rest
    else if c.isWhitespace then subCommaAux (c :: pending) false rest
    else if c == ',' then ' ' :: subCommaAux [] true rest
    else pending.reverse ++ (c :: subCommaAux [] false rest)

/-- `re.sub(r'\s*,\s*', ' ', ·)`. -/
def subCommaWS (cs : List Char) : List Char := subCommaAux [] false cs

/-- `re.sub` of `\s+` by a single space (`inWS` marks a run in progress). -/
def subWSAux (inWS : Bool) : List Char → List Char
  | [] => []
  | c :: rest =>
    if c.isWhitespace then
      if inWS then subWSAux true rest else ' ' :: subWSAux true rest
    else c :: subWSAux false rest

/-- `re.sub(r'\s+', ' ', ·)`. -/
def subWSRuns (cs : List Char) : List Char := subWSAux false cs

/-- Python `str.split()`: whitespace-separated tokens, no empties. -/
def splitAux (cur : List Char) : List Char → List (List Char)
  | [] => if cur.isEmpty then [] else [cur.reverse]
  | c :: rest =>
    if c.isWhitespace then
      if cur.isEmpty then splitAux [] rest else cur.reverse :: splitAux [] rest
    else splitAux (c :: cur) rest

/-- Python `str.split()`. -/
def splitWS (cs : List Char) : List (List Char) := splitAux [] cs

/-- Python `word.strip('.,!?')`. -/
def stripPunct (w : List Char) : List Char :=
  let isP := fun (c : Char) => c == '.' || c == ',' || c == '!' || c == '?'
  ((w.dropWhile isP).reverse.dropWhile isP).reverse

/-- The stop-word list `skip_words` of the source. -/
def skip_words : List String :=
  ["i", "me", "my", "the", "a", "an", "some", "need", "want", "order",
   "buy", "get", "please", "for", "of", "to", "in", "on", "at",
   "days", "day", "tablets", "tablet", "capsules", "capsule", "pills", "pill",
   "worth", "again", "and", "or"]

/-- The candidate medicine-name tokens: clean the lowered message, split,
strip punctuation, and keep words that are non-empty, not all digits, longer
than 2 characters and not stop words. -/
def potential_names (msgL : List Char) : List (List Char) :=
  let cleaned := subWSRuns (subCommaWS msgL)
  let words := splitWS cleaned
  (words.map stripPunct).filter (fun w =>
    !w.isEmpty && !(w.all Char.isDigit) && decide (w.length > 2) &&
      !(skip_words.any (fun s => s.data == w)))

/-- The fuzzy branch: first candidate token with a fuzzy catalog match takes
the first matched name. -/
def firstFuzzy (catalog : List Medicine) : List (List Char) → Option String
  | [] => none
  | p :: ps =>
    match search_medicine_fuzzy catalog p with
    | m :: _ => some m
    | [] => firstFuzzy catalog ps

/-- The fuzzy branch over the candidate tokens of the message. -/
def fuzzy_match (catalog : List Medicine) (msgL : List Char) : Option String :=
  firstFuzzy catalog (potential_names msgL)

/-- Python `str.capitalize()`. -/
def capitalizeL : List Char → String
  | [] => ""
  | c :: r => String.mk (c.toUpper :: r.map Char.toLower)

/-- The best-guess branch: the first unmatched candidate token, capitalized. -/
def best_guess (msgL : List Char) : Option String :=
  (potential_names msgL).head?.map capitalizeL

/-- The structured intent returned by the extractor. -/
structure OrderIntent where
  medicine_name : Option String
  quantity : Int
  dosage_per_day : Int
  confidence : ℚ
  raw_message : String
deriving DecidableEq, Repr

/-- `ConversationalAgent._extract_with_regex`: quantity and dosage from the
pattern loops (default 1), then the five name branches in order, each with
its policy confidence constant. -/
def extract_with_regex (catalog : List Medicine) (history : List OrderRec)
    (message : String) : OrderIntent :=
  let msgL := toLowerL message
  let q : Int := ((extract_quantity msgL).getD 1 : Nat)
  let d : Int := ((extract_dosage msgL).getD 1 : Nat)
  match refill_match history msgL with
  | some m =>
    { medicine_name := some m, quantity := q, dosage_per_day := d,
      confidence := (7 : ℚ)/10, raw_message := message }
  | none =>
    match exact_match catalog msgL with
    | some m =>
      { medicine_name := some m, quantity := q, dosage_per_day := d,
        confidence := (8 : ℚ)/10, raw_message := message }
    | none =>
      match fuzzy_match catalog msgL with
      | some m =>
        { medicine_name := some m, quantity := q, dosage_per_day := d,
          confidence := (6 : ℚ)/10, raw_message := message }
      | none =>
        match best_guess msgL with
        | some m =>
          { medicine_name := some m, quantity := q, dosage_per_day := d,
            confidence := (3 : ℚ)/10, raw_message := message }
        | none =>
          { medicine_name := none, quantity := q, dosage_per_day := d,
            confidence := 0, raw_message := message }

/-! ### Orchestrator (`agents/orchestrator_agent.py`, `process_order`) -/

/-- The part of the orchestrator's `workflow_result` that the claims use. -/
structure WorkflowResult where
  status : String
  message : String
  order_id : Option String
deriving DecidableEq, Repr

/-- `InventoryAgent.__init__` default `low_stock_threshold`. -/
def low_stock_threshold : Int := 50

/-- `OrchestratorAgent.process_order`: extract intent (regex fallback path),
validate prescription, check dosage, check availability, deduct, persist.
Any rejection or failure returns immediately with the tables unchanged.
`now` is the current date, stored with the persisted order. -/
def process_order (db : DB) (user_id message : String) (now : ℚ) :
    WorkflowResult × DB :=
  let history := get_user_history db.orders user_id
  let intent := extract_with_regex db.catalog history message
  match intent.medicine_name with
  | none =>
    ({ status := "failed", message := "Could not understand medicine request.",
       order_id := none }, db)
  | some medicine_name =>
    -- Python truthiness: an empty name also counts as not extracted.
    if medicine_name == "" then
      ({ status := "failed", message := "Could not understand medicine request.",
         order_id := none }, db)
    else
      let quantity := intent.quantity
      let dosage_per_day := intent.dosage_per_day
      let sd := validate_order false db.catalog medicine_name
      if !sd.is_valid then
        ({ status := "rejected", message := sd.reason, order_id := none }, db)
      else
        let ds := check_dosage_safety dosage_per_day
        if !ds.1 then
          ({ status := "rejected", message := ds.2, order_id := none }, db)
        else
          let av := check_availability db.catalog medicine_name quantity
          if !av.is_available then
            ({ status := "rejected", message := av.message, order_id := none }, db)
          else
            let dr := deduct_stock low_stock_threshold db.catalog medicine_name quantity
            if !dr.success then
              ({ status := "failed",
                 message := "Failed to process order: Stock deduction error",
                 order_id := none }, db)
            else
              let orders1 := save_order db.orders user_id medicine_name quantity
                dosage_per_day now
              ({ status := "success", message := "Order confirmed",
                 order_id := some "ORD" },
               { catalog := dr.catalog, orders := orders1 })

/-! ### Predictive agent (`agents/predictive_agent.py`) -/

/-- `total_days_supply = quantity / dosage_per_day` (exact rational in place
of float division). -/
def total_days_supply (quantity dosage_per_day : Int) : ℚ :=
  (quantity : ℚ) / (dosage_per_day : ℚ)

/-- `(current_date - purchase_date).days`: dates are rational day counts, so
`timedelta.days` is the floor of the difference. -/
def days_elapsed (purchase_date current_date : ℚ) : Int :=
  ⌊current_date - purchase_date⌋

/-- Python `round(x, 1)`: round to one decimal (half-to-even ties of the
float original are idealised as half-up; no claim depends on exact ties). -/
def round1 (x : ℚ) : ℚ := ((⌊10 * x + 1/2⌋ : ℤ) : ℚ) / 10

/-- The dictionary returned by `PredictiveAgent._calculate_days_remaining`. -/
structure Prediction where
  days_remaining : ℚ
  elapsed : Int
  supply : ℚ
  runout_date : ℚ
deriving DecidableEq, Repr

/-- `PredictiveAgent._calculate_days_remaining`: the runout date uses the
unrounded supply; the reported figures are rounded to one decimal. -/
def calculate_days_remaining (quantity dosage_per_day : Int)
    (purchase_date current_date : ℚ) : Prediction :=
  let tds := total_days_supply quantity dosage_per_day
  let e := days_elapsed purchase_date current_date
  let dr := tds - (e : ℚ)
  { days_remaining := round1 dr, elapsed := e, supply := round1 tds,
    runout_date := purchase_date + tds }

/-- `PredictiveAgent._get_alert_priority`. -/
def get_alert_priority (days_remaining : ℚ) : String :=
  if days_remaining ≤ 0 then "CRITICAL"
  else if days_remaining ≤ 1 then "HIGH"
  else if days_remaining ≤ 3 then "MEDIUM"
  else "LOW"

/-- `PredictiveAgent.__init__` default `alert_threshold_days`. -/
def alert_threshold_days : ℚ := 3

/-- The alert dictionary of `predict_refill_needs`. -/
structure RefillAlert where
  user_id : String
  medicine_name : String
  days_remaining : ℚ
  last_quantity : Int
  dosage_per_day : Int
  predicted_runout_date : ℚ
  alert_priority : String
deriving DecidableEq, Repr

/-- The most recent order of a group: `sort_values('purchase_date')` is a
stable ascending sort, so `iloc[-1]` is the last row among those with the
maximal purchase date. -/
def most_recent (group : List OrderRec) : Option OrderRec :=
  group.foldl (fun acc o =>
    match acc with
    | none => some o
    | some b => if b.purchase_date ≤ o.purchase_date then some o else some b) none

/-- `PredictiveAgent.predict_refill_needs`: per (user, medicine) group take
the most recent order, compute the prediction, keep groups whose remaining
days are at or below the threshold, and sort ascending by days remaining.
(The enumeration order of the groups before the final sort is irrelevant to
every property stated below.) -/
def predict_refill_needs (threshold : ℚ) (history : List OrderRec)
    (user_id : Option String) (today : ℚ) : List RefillAlert :=
  let filtered : List OrderRec := match user_id with
    | some u => history.filter (fun o => o.user_id == u)
    | none => history
  let keys : List (String × String) :=
    (filtered.map (fun o => (o.user_id, o.medicine_name))).dedup
  let alerts := keys.filterMap (fun k =>
    let group := filtered.filter (fun o => o.user_id == k.1 && o.medicine_name == k.2)
    (most_recent group).bind (fun r =>
      let p := calculate_days_remaining r.quantity r.dosage_per_day
        r.purchase_date today
      if p.days_remaining ≤ threshold then
        some { user_id := k.1, medicine_name := k.2,
               days_remaining := p.days_remaining,
               last_quantity := r.quantity, dosage_per_day := r.dosage_per_day,
               predicted_runout_date := p.runout_date,
               alert_priority := get_alert_priority p.days_remaining }
      else none))
  stableSort (fun a b => decide (a.days_remaining ≤ b.days_remaining)) alerts

/-! ### Trace store (`observability/trace_logger.py`)

ISO-8601 timestamp strings compare lexicographically in chronological
order; they are modelled as naturals with the numeric order. -/

/-- One JSONL line of the trace log. -/
structure TraceEntry where
  trace_id : String
  timestamp : Nat
  agent_name : String
  status : String
deriving DecidableEq, Repr

/-- `TraceLogger.get_traces`: filter in file order, newest first, first
`limit` entries. -/
def get_traces (log : List TraceEntry) (limit : Nat) (tid agent : Option String) :
    List TraceEntry :=
  let fil := log.filter (fun t =>
    (match tid with | some i => t.trace_id == i | none => true) &&
      (match agent with | some a => t.agent_name == a | none => true))
  fil.reverse.take limit

/-- One element of the grouped view. -/
structure GroupedTrace where
  trace_id : String
  start_time : Nat
  actions : List TraceEntry
deriving DecidableEq, Repr

/-- One step of the grouping dict of `get_recent_traces_grouped`: append the
entry to its group, or open a new group whose `start_time` is the timestamp
of this first-encountered entry (the input is already newest-first). -/
def groupStep (acc : List GroupedTrace) (t : TraceEntry) : List GroupedTrace :=
  if acc.any (fun g => g.trace_id == t.trace_id) then
    acc.map (fun g =>
      if g.trace_id == t.trace_id then { g with actions := g.actions ++ [t] }
      else g)
  else
    acc ++ [{ trace_id := t.trace_id, start_time := t.timestamp,
              actions := [t] }]

/-- The grouping dict of `get_recent_traces_grouped` (insertion-ordered, as
a Python dict). -/
def groupByTraceId (ts : List TraceEntry) : List GroupedTrace :=
  ts.foldl groupStep []

/-- `TraceLogger.get_recent_traces_grouped`: fetch `limit * 10` newest
entries, group by trace id, sort the groups by `start_time` descending
(stable, like `sort(key=..., reverse=True)`), return the first `limit`. -/
def get_recent_traces_grouped (log : List TraceEntry) (limit : Nat) :
    List GroupedTrace :=
  let all_traces := get_traces log (limit * 10) none none
  let result := groupByTraceId all_traces
  (stableSort (fun a b => decide (b.start_time ≤ a.start_time)) result).take limit

/-- The earliest timestamp of a workflow group (the quantity the spec says
the grouped view is sorted by). -/
def earliest_timestamp (g : GroupedTrace) : Nat :=
  (g.actions.map (·.timestamp)).foldr min g.start_time

/-! ### Concrete sample data (used by witnesses and counterexamples) -/

/-- A non-prescription catalog row with ample stock. -/
def paracetamol : Medicine :=
  { medicine_name := "Paracetamol", unit_type := "tablet", stock_level := 100,
    prescription_required := false }

/-- A prescription-only catalog row. -/
def amoxicillin : Medicine :=
  { medicine_name := "Amoxicillin", unit_type := "capsule", stock_level := 30,
    prescription_required := true }

/-- A small database for the order-pipeline scenarios. -/
def sampleDB : DB := { catalog := [paracetamol, amoxicillin], orders := [] }

/-- A catalog row driving the procurement scenario (stock 60). -/
def zinc : Medicine :=
  { medicine_name := "Zinc", unit_type := "tablet", stock_level := 60,
    prescription_required := false }

/-- A one-order user history (for the refill branch). -/
def aspirinHistory : List OrderRec :=
  [{ user_id := "u1", medicine_name := "Aspirin", quantity := 1,
     dosage_per_day := 1, purchase_date := 0 }]

/-- A one-order history for the refill-alert evaluation. -/
def demoHistory : List OrderRec :=
  [{ user_id := "u7", medicine_name := "Medix", quantity := 2,
     dosage_per_day := 1, purchase_date := 0 }]

/-- The alert that `demoHistory` produces at day 1. -/
def demoAlert : RefillAlert :=
  { user_id := "u7", medicine_name := "Medix", days_remaining := 1,
    last_quantity := 2, dosage_per_day := 1, predicted_runout_date := 2,
    alert_priority := "HIGH" }

/-- Trace log with two interleaved workflows: A at times 1 and 10, B at
times 2 and 3 (so A is earliest-first but most-recent-last). -/
def traceA1 : TraceEntry :=
  { trace_id := "A", timestamp := 1, agent_name := "x", status := "success" }

/-- Second sample entry, workflow B at time 2. -/
def traceB2 : TraceEntry :=
  { trace_id := "B", timestamp := 2, agent_name := "x", status := "success" }

/-- Third sample entry, workflow B at time 3. -/
def traceB3 : TraceEntry :=
  { trace_id := "B", timestamp := 3, agent_name := "x", status := "success" }

/-- Fourth sample entry, workflow A again at time 10. -/
def traceA10 : TraceEntry :=
  { trace_id := "A", timestamp := 10, agent_name := "x", status := "success" }

/-- The interleaved sample log, in append (chronological) order. -/
def sampleLog : List TraceEntry := [traceA1, traceB2, traceB3, traceA10]

/-- The group of workflow A in the grouped view of `sampleLog`. -/
def groupA : GroupedTrace :=
  { trace_id := "A", start_time := 10, actions := [traceA10, traceA1] }

/-! ## Lemmas about the stable sort -/

theorem mem_insertLe {α : Type _} {le : α → α → Bool} {x a : α} {l : List α} :
    a ∈ insertLe le x l ↔ a = x ∨ a ∈ l := by
  induction l with
  | nil => simp [insertLe]
  | cons y ys ih =>
    simp only [insertLe]
    split
    · simp only [List.mem_cons, ih]
      tauto
    · simp only [List.mem_cons]
      try tauto

theorem pairwise_insertLe {α : Type _} {le : α → α → Bool}
    (htrans : ∀ a b c, le a b = true → le b c = true → le a c = true)
    (htot : ∀ a b, le a b = true ∨ le b a = true)
    {x : α} {l : List α} (h : l.Pairwise (fun a b => le a b = true)) :
    (insertLe le x l).Pairwise (fun a b => le a b = true) := by
  induction l with
  | nil => simp [insertLe]
  | cons y ys ih =>
    rw [List.pairwise_cons] at h
    obtain ⟨hy, hys⟩ := h
    simp only [insertLe]
    split
    · rename_i hyx
      rw [List.pairwise_cons]
      refine ⟨fun b hb => ?_, ih hys⟩
      rcases mem_insertLe.mp hb with rfl | hb
      · exact hyx
      · exact hy b hb
    · rename_i hyx
      have hxy : le x y = true := by
        rcases htot y x with h1 | h1
        · exact absurd h1 hyx
        · exact h1
      rw [List.pairwise_cons]
      constructor
      · intro b hb
        rcases List.mem_cons.mp hb with rfl | hb
        · exact hxy
        · exact htrans x y b hxy (hy b hb)
      · rw [List.pairwise_cons]
        exact ⟨hy, hys⟩

theorem mem_sortFold {α : Type _} {le : α → α → Bool} {a : α} :
    ∀ {l acc : List α}, a ∈ sortFold le acc l ↔ a ∈ acc ∨ a ∈ l := by
  intro l
  induction l with
  | nil => simp [sortFold]
  | cons x xs ih =>
    intro acc
    simp only [sortFold, ih, mem_insertLe, List.mem_cons]
    tauto

theorem pairwise_sortFold {α : Type _} {le : α → α → Bool}
    (htrans : ∀ a b c, le a b = true → le b c = true → le a c = true)
    (htot : ∀ a b, le a b = true ∨ le b a = true) :
    ∀ {l acc : List α}, acc.Pairwise (fun a b => le a b = true) →
      (sortFold le acc l).Pairwise (fun a b => le a b = true) := by
  intro l
  induction l with
  | nil => intro acc h; exact h
  | cons x xs ih =>
    intro acc h
    exact ih (pairwise_insertLe htrans htot h)

theorem mem_stableSort {α : Type _} {le : α → α → Bool} {a : α} {l : List α} :
    a ∈ stableSort le l ↔ a ∈ l := by
  simp [stableSort, mem_sortFold]

theorem pairwise_stableSort {α : Type _} {le : α → α → Bool}
    (htrans : ∀ a b c, le a b = true → le b c = true → le a c = true)
    (htot : ∀ a b, le a b = true ∨ le b a = true) (l : List α) :
    (stableSort le l).Pairwise (fun a b => le a b = true) :=
  pairwise_sortFold htrans htot List.Pairwise.nil

/-! ## Small string helper -/

theorem append_ne_empty (s t : String) (h : s.data ≠ []) : s ++ t ≠ "" := by
  obtain ⟨a⟩ := s
  obtain ⟨b⟩ := t
  intro hc
  have : a ++ b = [] := congrArg String.data hc
  rcases List.append_eq_nil.mp this with ⟨rfl, -⟩
  exact h rfl

/-! ## Helper lemmas about the ledger -/

/-- After a successful `update_stock`, re-reading the medicine sees exactly
the adjusted stock level. -/
theorem get_medicine_update (catalog : List Medicine) (name : String)
    (change : Int) (m : Medicine) (hm : get_medicine catalog name = some m)
    (h : 0 ≤ m.stock_level + change) :
    (update_stock catalog name change).1 = true ∧
    get_medicine (update_stock catalog name change).2 name =
      some { m with stock_level := m.stock_level + change } := by
  have hfind : catalog.find? (fun x => lowEq x.medicine_name name) = some m := hm
  have hmn := List.find?_some hfind
  simp only at hmn
  simp only [update_stock, hm]
  rw [if_neg (by omega)]
  refine ⟨rfl, ?_⟩
  unfold get_medicine
  rw [List.find?_map]
  have hcomp :
      ((fun x : Medicine => lowEq x.medicine_name name) ∘
        (fun x : Medicine =>
          if lowEq x.medicine_name name then
            { x with stock_level := m.stock_level + change }
          else x)) =
      fun x : Medicine => lowEq x.medicine_name name := by
    funext x
    simp only [Function.comp]
    split <;> rfl
  rw [hcomp, hfind]
  simp [hmn]

/-- A successful `process_order` run passed the dosage gate. -/
theorem success_implies_dosage_ok (db : DB) (uid msg : String) (now : ℚ) :
    (process_order db uid msg now).1.status = "success" →
    (check_dosage_safety
      (extract_with_regex db.catalog (get_user_history db.orders uid)
        msg).dosage_per_day).1 = true := by
  intro h
  simp only [process_order] at h
  split at h
  · simp at h
  · split at h
    · simp at h
    · split at h
      · simp at h
      · split at h
        · simp at h
        · rename_i hds
          simpa using hds

/-! ## C1 -/

/-- C1: a stock update can never drive any stored stock level negative, and
a deduction whose quantity exceeds the current stock fails closed: both
`update_stock` and `deduct_stock` return failure and leave the catalog
unchanged, independent of any earlier availability check. -/
theorem update_stock_preserves_nonneg (catalog : List Medicine) (name : String)
    (change q : Int) (hnn : ∀ m ∈ catalog, 0 ≤ m.stock_level) :
    (∀ m ∈ (update_stock catalog name change).2, 0 ≤ m.stock_level) ∧
    (∀ m, get_medicine catalog name = some m → m.stock_level < q →
      update_stock catalog name (-q) = (false, catalog) ∧
      deduct_stock low_stock_threshold catalog name q =
        { success := false, catalog := catalog, signal := none }) := by
  constructor
  · intro m hm
    cases hg : get_medicine catalog name with
    | none =>
      simp only [update_stock, hg] at hm
      exact hnn m hm
    | some m0 =>
      simp only [update_stock, hg] at hm
      by_cases hneg : m0.stock_level + change < 0
      · rw [if_pos hneg] at hm
        exact hnn m hm
      · rw [if_neg hneg] at hm
        simp only [List.mem_map] at hm
        obtain ⟨x, hx, rfl⟩ := hm
        by_cases hl : lowEq x.medicine_name name
        · simp only [hl, if_true]
          omega
        · simp only [hl, Bool.false_eq_true, if_false]
          exact hnn x hx
  · intro m hm hlt
    have hupd : update_stock catalog name (-q) = (false, catalog) := by
      simp only [update_stock, hm]
      rw [if_pos (by omega)]
    refine ⟨hupd, ?_⟩
    simp only [deduct_stock, hm, hupd]

/-- Witness for C1 at a concrete catalog: deducting 100 from a stock of 60
fails and leaves the table untouched. -/
theorem update_stock_preserves_nonneg_witness :
    update_stock [zinc] "Zinc" (-100) = (false, [zinc]) ∧
    deduct_stock low_stock_threshold [zinc] "Zinc" 100 =
      { success := false, catalog := [zinc], signal := none } :=
  (update_stock_preserves_nonneg [zinc] "Zinc" 0 100 (by decide)).2 zinc
    (by decide) (by decide)

/-! ## C3 -/

/-- C3: the dosage gate rejects non-positive dosages and dosages above 10,
allows dosages in (6, 10] with a non-empty warning, allows dosages in [1, 6]
with an empty message, and a requested dosage of 12 can never reach a
successful order, whatever the stock or prescription situation. -/
theorem check_dosage_safety_correct (d : Int) (db : DB) (uid msg : String)
    (now : ℚ) :
    (d ≤ 0 → (check_dosage_safety d).1 = false) ∧
    (10 < d → (check_dosage_safety d).1 = false) ∧
    (6 < d → d ≤ 10 →
      (check_dosage_safety d).1 = true ∧ (check_dosage_safety d).2 ≠ "") ∧
    (1 ≤ d → d ≤ 6 → check_dosage_safety d = (true, "")) ∧
    ((extract_with_regex db.catalog (get_user_history db.orders uid)
        msg).dosage_per_day = 12 →
      (process_order db uid msg now).1.status ≠ "success") := by
  refine ⟨?_, ?_, ?_, ?_, ?_⟩
  · intro h
    unfold check_dosage_safety
    rw [if_pos h]
  · intro h
    unfold check_dosage_safety
    rw [if_neg (by omega), if_pos (by omega)]
  · intro h6 h10
    unfold check_dosage_safety
    rw [if_neg (by omega), if_neg (by omega), if_pos (by omega)]
    exact ⟨rfl, append_ne_empty _ _ (by decide)⟩
  · intro h1 h6
    unfold check_dosage_safety
    rw [if_neg (by omega), if_neg (by omega), if_neg (by omega)]
  · intro h12 hsucc
    have := success_implies_dosage_ok db uid msg now hsucc
    rw [h12] at this
    exact absurd this (by decide)

/-- Witness for C3: dosage 8 is allowed with a warning, and a message asking
for 12 per day is not fulfilled even with ample non-prescription stock. -/
theorem check_dosage_safety_correct_witness :
    ((check_dosage_safety 8).1 = true ∧ (check_dosage_safety 8).2 ≠ "") ∧
    (process_order sampleDB "u1" "I need Paracetamol, 20 tablets, 12 per day"
      0).1.status ≠ "success" :=
  ⟨(check_dosage_safety_correct 8 sampleDB "u1" "m" 0).2.2.1 (by decide)
      (by decide),
   (check_dosage_safety_correct 12 sampleDB "u1"
      "I need Paracetamol, 20 tablets, 12 per day" 0).2.2.2.2 (by decide)⟩

/-! ## C4 -/

/-- C4: when a covered deduction lands below the threshold, the procurement
signal requests `max 100 (200 - new_stock)` units with priority `high`
exactly when the new stock is below 20, `normal` otherwise. -/
theorem procurement_signal_correct (catalog : List Medicine) (name : String)
    (q : Int) (m : Medicine) (hm : get_medicine catalog name = some m)
    (hq : q ≤ m.stock_level) (hlow : m.stock_level - q < low_stock_threshold) :
    (deduct_stock low_stock_threshold catalog name q).success = true ∧
    (deduct_stock low_stock_threshold catalog name q).signal =
      some { requested_quantity := max 100 (200 - (m.stock_level - q)),
             priority := if m.stock_level - q < 20 then "high" else "normal" } := by
  obtain ⟨h1, h2⟩ := get_medicine_update catalog name (-q) m hm (by omega)
  rcases hu : update_stock catalog name (-q) with ⟨ok, cat1⟩
  rw [hu] at h1 h2
  have hok : ok = true := h1
  subst hok
  have hnew : ((get_medicine cat1 name).map (·.stock_level)).getD 0 =
      m.stock_level - q := by
    rw [h2]
    show m.stock_level + -q = m.stock_level - q
    omega
  simp only [deduct_stock, hm, hu, hnew]
  rw [if_pos (by omega)]
  simp [trigger_warehouse_procurement, calculate_procurement_quantity]

/-- Witness for C4, Scenario E of the spec: stock 60, deduct 20, threshold
50: the signal requests 160 units at priority `normal`. -/
theorem procurement_signal_correct_witness :
    (deduct_stock low_stock_threshold [zinc] "Zinc" 20).success = true ∧
    (deduct_stock low_stock_threshold [zinc] "Zinc" 20).signal =
      some { requested_quantity := 160, priority := "normal" } := by
  have h := procurement_signal_correct [zinc] "Zinc" 20 zinc (by decide)
    (by decide) (by decide)
  simpa using h

/-! ## C10 -/

/-- C10: a medicine absent from the catalog is rejected by the safety
validator with the `medicine_not_found` tag, reported unavailable by the
availability check, and an order extracted for it ends `rejected` with the
tables untouched — no stock mutation happens. -/
theorem unknown_medicine_rejected (db : DB) (name uid msg : String) (q : Int)
    (now : ℚ) (h : get_medicine db.catalog name = none) :
    (validate_order false db.catalog name).is_valid = false ∧
    (validate_order false db.catalog name).error = some "medicine_not_found" ∧
    (check_availability db.catalog name q).is_available = false ∧
    (name ≠ "" →
      (extract_with_regex db.catalog (get_user_history db.orders uid)
          msg).medicine_name = some name →
      (process_order db uid msg now).1.status = "rejected" ∧
      (process_order db uid msg now).2 = db) := by
  refine ⟨?_, ?_, ?_, ?_⟩
  · unfold validate_order
    rw [h]
  · unfold validate_order
    rw [h]
  · unfold check_availability
    rw [h]
  · intro hn hx
    have hinvalid : (validate_order false db.catalog name).is_valid = false := by
      unfold validate_order
      rw [h]
    have hbeq : (name == "") = false := beq_eq_false_iff_ne.mpr hn
    constructor <;>
      · simp only [process_order]
        rw [hx]
        simp [hbeq, hinvalid]

/-- Witness for C10: `Xyzzy` is not in the sample catalog; a message naming
it is extracted as a best guess and the order is rejected without mutation. -/
theorem unknown_medicine_rejected_witness :
    (process_order sampleDB "u1" "need xyzzy 5 tablets" 0).1.status =
      "rejected" ∧
    (process_order sampleDB "u1" "need xyzzy 5 tablets" 0).2 = sampleDB :=
  (unknown_medicine_rejected sampleDB "Xyzzy" "u1" "need xyzzy 5 tablets" 5 0
    (by decide)).2.2.2 (by decide) (by decide)

/-! ## C2 -/

/-- Exhaustive branch analysis of `process_order`: every run either leaves
the database untouched with a `failed` or `rejected` status, or succeeds,
in which case the catalog is the one produced by a successful deduction and
exactly one order row was appended. -/
theorem process_order_cases (db : DB) (uid msg : String) (now : ℚ) :
    ((process_order db uid msg now).2 = db ∧
      ((process_order db uid msg now).1.status = "failed" ∨
       (process_order db uid msg now).1.status = "rejected")) ∨
    ((process_order db uid msg now).1.status = "success" ∧
      ∃ name q d2,
        (deduct_stock low_stock_threshold db.catalog name q).success = true ∧
        (process_order db uid msg now).2 =
          { catalog := (deduct_stock low_stock_threshold db.catalog name q).catalog,
            orders := db.orders ++
              [{ user_id := uid, medicine_name := name, quantity := q,
                 dosage_per_day := d2, purchase_date := now }] }) := by
  simp only [process_order, save_order]
  split
  · exact Or.inl ⟨rfl, Or.inl rfl⟩
  · split
    · exact Or.inl ⟨rfl, Or.inl rfl⟩
    · split
      · exact Or.inl ⟨rfl, Or.inr rfl⟩
      · split
        · exact Or.inl ⟨rfl, Or.inr rfl⟩
        · split
          · exact Or.inl ⟨rfl, Or.inr rfl⟩
          · split
            · exact Or.inl ⟨rfl, Or.inl rfl⟩
            · rename_i nm hname hnm hsd hds hav hdr
              refine Or.inr ⟨rfl, nm,
                (extract_with_regex db.catalog (get_user_history db.orders uid)
                  msg).quantity,
                (extract_with_regex db.catalog (get_user_history db.orders uid)
                  msg).dosage_per_day, ?_, rfl⟩
              simpa using hdr

/-- C2: an order row is persisted exactly on the success path — after the
stock deduction succeeded — and then exactly one row is appended; every
`rejected` or `failed` outcome (unextractable name, safety or dosage
rejection, insufficient stock, deduction failure) leaves the order history
and the catalog unchanged. -/
theorem order_persisted_iff_success (db : DB) (uid msg : String) (now : ℚ) :
    ((process_order db uid msg now).1.status = "success" ∨
     (process_order db uid msg now).1.status = "rejected" ∨
     (process_order db uid msg now).1.status = "failed") ∧
    ((process_order db uid msg now).1.status ≠ "success" →
      (process_order db uid msg now).2 = db) ∧
    ((process_order db uid msg now).1.status = "success" →
      ∃ name q,
        (deduct_stock low_stock_threshold db.catalog name q).success = true ∧
        (process_order db uid msg now).2.catalog =
          (deduct_stock low_stock_threshold db.catalog name q).catalog ∧
        ∃ o : OrderRec,
          (process_order db uid msg now).2.orders = db.orders ++ [o]) := by
  rcases process_order_cases db uid msg now with ⟨hdb, hst⟩ |
    ⟨hst, name, q, d2, hded, hdb⟩
  · refine ⟨?_, fun _ => hdb, fun hs => ?_⟩
    · tauto
    · rcases hst with h | h <;> rw [hs] at h <;> simp at h
  · refine ⟨Or.inl hst, fun hne => absurd hst hne, fun _ => ?_⟩
    exact ⟨name, q, hded, by rw [hdb], ⟨_, by rw [hdb]⟩⟩

/-- Witness for C2, Scenario A of the spec: the sample order succeeds, so a
deduction succeeded and exactly one order row was appended. -/
theorem order_persisted_iff_success_witness :
    ∃ name q,
      (deduct_stock low_stock_threshold sampleDB.catalog name q).success =
        true ∧
      (process_order sampleDB "u1" "I need Paracetamol, 20 tablets"
          0).2.catalog =
        (deduct_stock low_stock_threshold sampleDB.catalog name q).catalog ∧
      ∃ o : OrderRec,
        (process_order sampleDB "u1" "I need Paracetamol, 20 tablets"
            0).2.orders = sampleDB.orders ++ [o] :=
  (order_persisted_iff_success sampleDB "u1" "I need Paracetamol, 20 tablets"
    0).2.2 (by decide)

/-! ## C7 -/

/-- C7 counterexample: the quantity pattern `(\d+)\s*(?:tablets?|...)`
accepts a literal zero, so the message `0 tablets` produces an intent with
`quantity = 0`, refuting `quantity ≥ 1`. -/
theorem intent_quantity_zero_counterexample :
    ¬ (1 ≤ (extract_with_regex [] [] "0 tablets").quantity) := by decide

/-- C7 (amended): the rule-based extractor returns nonnegative integer
quantity and dosage (an explicit `0` in the message is taken as is, so the
claimed lower bound 1 fails) and a confidence that always lies in [0, 1]. -/
theorem intent_bounds (catalog : List Medicine) (history : List OrderRec)
    (msg : String) :
    0 ≤ (extract_with_regex catalog history msg).quantity ∧
    0 ≤ (extract_with_regex catalog history msg).dosage_per_day ∧
    0 ≤ (extract_with_regex catalog history msg).confidence ∧
    (extract_with_regex catalog history msg).confidence ≤ 1 := by
  simp only [extract_with_regex]
  split
  · exact ⟨Int.natCast_nonneg _, Int.natCast_nonneg _, by norm_num, by norm_num⟩
  · split
    · exact ⟨Int.natCast_nonneg _, Int.natCast_nonneg _, by norm_num, by norm_num⟩
    · split
      · exact ⟨Int.natCast_nonneg _, Int.natCast_nonneg _, by norm_num,
          by norm_num⟩
      · split
        · exact ⟨Int.natCast_nonneg _, Int.natCast_nonneg _, by norm_num,
            by norm_num⟩
        · exact ⟨Int.natCast_nonneg _, Int.natCast_nonneg _, by norm_num,
            by norm_num⟩

/-! ## C8 -/

/-- C8: the confidence of the rule-based intent is exactly the policy
constant of the branch that produced the medicine name: 0.7 for a refill
reuse, 0.8 for an exact catalog substring match, 0.6 for a fuzzy token
match, 0.3 for a best-guess token, and 0.0 when no name was found. -/
theorem confidence_by_branch (catalog : List Medicine) (history : List OrderRec)
    (msg : String) :
    (∀ m, refill_match history (toLowerL msg) = some m →
      (extract_with_regex catalog history msg).confidence = (7 : ℚ)/10 ∧
      (extract_with_regex catalog history msg).medicine_name = some m) ∧
    (refill_match history (toLowerL msg) = none →
      ∀ m, exact_match catalog (toLowerL msg) = some m →
        (extract_with_regex catalog history msg).confidence = (8 : ℚ)/10 ∧
        (extract_with_regex catalog history msg).medicine_name = some m) ∧
    (refill_match history (toLowerL msg) = none →
      exact_match catalog (toLowerL msg) = none →
      ∀ m, fuzzy_match catalog (toLowerL msg) = some m →
        (extract_with_regex catalog history msg).confidence = (6 : ℚ)/10 ∧
        (extract_with_regex catalog history msg).medicine_name = some m) ∧
    (refill_match history (toLowerL msg) = none →
      exact_match catalog (toLowerL msg) = none →
      fuzzy_match catalog (toLowerL msg) = none →
      ∀ m, best_guess (toLowerL msg) = some m →
        (extract_with_regex catalog history msg).confidence = (3 : ℚ)/10 ∧
        (extract_with_regex catalog history msg).medicine_name = some m) ∧
    (refill_match history (toLowerL msg) = none →
      exact_match catalog (toLowerL msg) = none →
      fuzzy_match catalog (toLowerL msg) = none →
      best_guess (toLowerL msg) = none →
        (extract_with_regex catalog history msg).confidence = 0 ∧
        (extract_with_regex catalog history msg).medicine_name = none) := by
  refine ⟨?_, ?_, ?_, ?_, ?_⟩
  · intro m hm
    simp only [extract_with_regex, hm]
    exact ⟨trivial, trivial⟩
  · intro h0 m hm
    simp only [extract_with_regex, h0, hm]
    exact ⟨trivial, trivial⟩
  · intro h0 h1 m hm
    simp only [extract_with_regex, h0, h1, hm]
    exact ⟨trivial, trivial⟩
  · intro h0 h1 h2 m hm
    simp only [extract_with_regex, h0, h1, h2, hm]
    exact ⟨trivial, trivial⟩
  · intro h0 h1 h2 h3
    simp only [extract_with_regex, h0, h1, h2, h3]
    exact ⟨trivial, trivial⟩

/-- Witness for C8: with a one-order history, `refill my usual` reuses the
most recent medicine at confidence 0.7. -/
theorem confidence_by_branch_witness :
    (extract_with_regex [paracetamol] aspirinHistory
      "refill my usual").confidence = (7 : ℚ)/10 ∧
    (extract_with_regex [paracetamol] aspirinHistory
      "refill my usual").medicine_name = some "Aspirin" :=
  (confidence_by_branch [paracetamol] aspirinHistory "refill my usual").1
    "Aspirin" (by decide)

/-! ## C6 -/

/-- Every group built by the grouping fold is coherent: all its actions
carry its trace id, and its `start_time` is the timestamp of its first
(most recently appended) action. -/
theorem groupByTraceId_invariant (ts : List TraceEntry) :
    ∀ g ∈ groupByTraceId ts,
      (∀ a ∈ g.actions, a.trace_id = g.trace_id) ∧
      ∃ h tl, g.actions = h :: tl ∧ h.timestamp = g.start_time := by
  suffices hgen : ∀ acc : List GroupedTrace,
      (∀ g ∈ acc, (∀ a ∈ g.actions, a.trace_id = g.trace_id) ∧
        ∃ h tl, g.actions = h :: tl ∧ h.timestamp = g.start_time) →
      ∀ g ∈ ts.foldl groupStep acc,
        (∀ a ∈ g.actions, a.trace_id = g.trace_id) ∧
        ∃ h tl, g.actions = h :: tl ∧ h.timestamp = g.start_time by
    exact hgen [] (by simp)
  induction ts with
  | nil => intro acc hacc; simpa using hacc
  | cons t ts ih =>
    intro acc hacc
    simp only [List.foldl_cons]
    apply ih
    intro g hg
    unfold groupStep at hg
    split at hg
    · simp only [List.mem_map] at hg
      obtain ⟨g0, hg0, rfl⟩ := hg
      obtain ⟨hco, h0, tl0, hact, hts⟩ := hacc g0 hg0
      by_cases hid : g0.trace_id == t.trace_id
      · simp only [hid, if_true]
        refine ⟨?_, h0, tl0 ++ [t], by rw [hact]; simp, hts⟩
        intro a ha
        simp only [List.mem_append, List.mem_singleton] at ha
        rcases ha with ha | rfl
        · exact hco a ha
        · exact (eq_of_beq hid).symm
      · simp only [hid, Bool.false_eq_true, if_false]
        exact ⟨hco, h0, tl0, hact, hts⟩
    · simp only [List.mem_append, List.mem_singleton] at hg
      rcases hg with hg | rfl
      · exact hacc g hg
      · exact ⟨by simp, t, [], rfl, rfl⟩

/-- Groups survive further folding: their trace id is kept and their
actions only grow. -/
theorem foldl_groupStep_mono (ts : List TraceEntry) :
    ∀ acc : List GroupedTrace, ∀ g ∈ acc,
      ∃ g2 ∈ ts.foldl groupStep acc,
        g2.trace_id = g.trace_id ∧ ∀ a ∈ g.actions, a ∈ g2.actions := by
  induction ts with
  | nil => intro acc g hg; exact ⟨g, hg, rfl, fun a ha => ha⟩
  | cons t ts ih =>
    intro acc g hg
    simp only [List.foldl_cons]
    have hstep : ∃ g1 ∈ groupStep acc t,
        g1.trace_id = g.trace_id ∧ ∀ a ∈ g.actions, a ∈ g1.actions := by
      unfold groupStep
      split
      · refine ⟨if g.trace_id == t.trace_id then
            { g with actions := g.actions ++ [t] } else g,
          List.mem_map_of_mem _ hg, ?_⟩
        by_cases hid : g.trace_id == t.trace_id
        · simp only [hid, if_true]
          exact ⟨by simp, fun a ha => by simp [ha]⟩
        · simp only [hid, Bool.false_eq_true, if_false]
          exact ⟨by simp, fun a ha => ha⟩
      · exact ⟨g, by simp [hg], rfl, fun a ha => ha⟩
    obtain ⟨g1, hg1, hid1, hsub1⟩ := hstep
    obtain ⟨g2, hg2, hid2, hsub2⟩ := ih (groupStep acc t) g1 hg1
    exact ⟨g2, hg2, hid2.trans hid1, fun a ha => hsub2 a (hsub1 a ha)⟩

/-- Every entry fed to the grouping fold ends up in a group carrying its
trace id. -/
theorem groupByTraceId_complete (ts : List TraceEntry) :
    ∀ t ∈ ts, ∃ g ∈ groupByTraceId ts,
      t ∈ g.actions ∧ g.trace_id = t.trace_id := by
  suffices hgen : ∀ acc : List GroupedTrace, ∀ t ∈ ts,
      ∃ g ∈ ts.foldl groupStep acc, t ∈ g.actions ∧ g.trace_id = t.trace_id by
    exact hgen []
  induction ts with
  | nil => intro acc t ht; cases ht
  | cons t0 ts ih =>
    intro acc t ht
    simp only [List.foldl_cons]
    rcases List.mem_cons.mp ht with rfl | hts
    · have hstep : ∃ g1 ∈ groupStep acc t,
          t ∈ g1.actions ∧ g1.trace_id = t.trace_id := by
        unfold groupStep
        split
        · rename_i hany
          obtain ⟨g0, hg0, hid0⟩ := List.any_eq_true.mp hany
          refine ⟨{ g0 with actions := g0.actions ++ [t] }, ?_, by simp,
            eq_of_beq hid0⟩
          have : { g0 with actions := g0.actions ++ [t] } =
              (fun g => if g.trace_id == t.trace_id then
                { g with actions := g.actions ++ [t] } else g) g0 := by
            simp [hid0]
          rw [this]
          exact List.mem_map_of_mem _ hg0
        · refine ⟨⟨t.trace_id, t.timestamp, [t]⟩, ?_, ?_, rfl⟩
          · simp
          · simp
      obtain ⟨g1, hg1, hmem1, hid1⟩ := hstep
      obtain ⟨g2, hg2, hid2, hsub2⟩ := foldl_groupStep_mono ts (groupStep acc t) g1 hg1
      exact ⟨g2, hg2, hsub2 t hmem1, hid2.trans hid1⟩
    · exact ih (groupStep acc t0) t hts

/-- C6 counterexample: with workflow A logged at times 1 and 10 and
workflow B at times 2 and 3, the grouped view returns A before B although
A's earliest timestamp (1) is below B's (2) — the output is not sorted by
earliest timestamp descending. -/
theorem grouped_traces_counterexample :
    ¬ ((get_recent_traces_grouped sampleLog 50).Pairwise
        (fun g1 g2 => earliest_timestamp g2 ≤ earliest_timestamp g1)) := by
  decide

/-- C6 (amended): the grouped view groups every fetched entry under its
trace id, and the workflows are sorted descending by `start_time` — the
timestamp of each workflow's most recently appended entry in the retrieval
window (its first entry in the newest-first scan), not by its earliest
timestamp. -/
theorem grouped_traces_sorted (log : List TraceEntry) (limit : Nat) :
    (∀ t ∈ get_traces log (limit * 10) none none,
      ∃ g ∈ groupByTraceId (get_traces log (limit * 10) none none),
        t ∈ g.actions ∧ g.trace_id = t.trace_id) ∧
    (∀ g ∈ get_recent_traces_grouped log limit,
      (∀ a ∈ g.actions, a.trace_id = g.trace_id) ∧
      ∃ h tl, g.actions = h :: tl ∧ h.timestamp = g.start_time) ∧
    (get_recent_traces_grouped log limit).Pairwise
      (fun g1 g2 => g2.start_time ≤ g1.start_time) := by
  have htrans : ∀ a b c : GroupedTrace,
      decide (b.start_time ≤ a.start_time) = true →
      decide (c.start_time ≤ b.start_time) = true →
      decide (c.start_time ≤ a.start_time) = true := by
    intro a b c h1 h2
    exact decide_eq_true (le_trans (of_decide_eq_true h2) (of_decide_eq_true h1))
  have htot : ∀ a b : GroupedTrace,
      decide (b.start_time ≤ a.start_time) = true ∨
      decide (a.start_time ≤ b.start_time) = true := by
    intro a b
    rcases le_total b.start_time a.start_time with h | h
    · exact Or.inl (decide_eq_true h)
    · exact Or.inr (decide_eq_true h)
  refine ⟨groupByTraceId_complete _, ?_, ?_⟩
  · intro g hg
    simp only [get_recent_traces_grouped] at hg
    have hg1 := List.take_subset _ _ hg
    exact groupByTraceId_invariant _ g (mem_stableSort.mp hg1)
  · simp only [get_recent_traces_grouped]
    have hp := pairwise_stableSort htrans htot
      (groupByTraceId (get_traces log (limit * 10) none none))
    have hp2 := List.Pairwise.sublist (List.take_sublist limit _) hp
    exact hp2.imp (fun hab => of_decide_eq_true hab)

/-- Witness for C6 at the sample log: workflow A's group is coherent and its
`start_time` is its newest entry's timestamp. -/
theorem grouped_traces_sorted_witness :
    (∀ a ∈ groupA.actions, a.trace_id = groupA.trace_id) ∧
    ∃ h tl, groupA.actions = h :: tl ∧ h.timestamp = groupA.start_time :=
  (grouped_traces_sorted sampleLog 50).2.1 groupA (by decide)

/-! ## C5 -/

/-- Evaluate a floor from a bracketing. -/
theorem floor_eval {x : ℚ} {n : ℤ} (h1 : (n : ℚ) ≤ x) (h2 : x < n + 1) :
    ⌊x⌋ = n :=
  Int.floor_eq_iff.mpr ⟨h1, h2⟩

/-- Rounding to one decimal is monotone. -/
theorem round1_mono {x y : ℚ} (h : x ≤ y) : round1 x ≤ round1 y := by
  unfold round1
  have h2 : ⌊(10 : ℚ) * x + 1/2⌋ ≤ ⌊(10 : ℚ) * y + 1/2⌋ :=
    Int.floor_mono (by linarith)
  have h3 : ((⌊(10 : ℚ) * x + 1/2⌋ : ℤ) : ℚ) ≤
      ((⌊(10 : ℚ) * y + 1/2⌋ : ℤ) : ℚ) := by exact_mod_cast h2
  linarith

/-- Full characterisation of the priority thresholds. -/
theorem get_alert_priority_spec (x : ℚ) :
    (get_alert_priority x = "CRITICAL" ↔ x ≤ 0) ∧
    (get_alert_priority x = "HIGH" ↔ 0 < x ∧ x ≤ 1) ∧
    (get_alert_priority x = "MEDIUM" ↔ 1 < x ∧ x ≤ 3) ∧
    (get_alert_priority x = "LOW" ↔ 3 < x) := by
  unfold get_alert_priority
  by_cases h0 : x ≤ 0
  · rw [if_pos h0]
    refine ⟨iff_of_true rfl h0, ?_, ?_, ?_⟩
    · exact iff_of_false (by decide) (fun h => absurd h.1 (not_lt.mpr h0))
    · exact iff_of_false (by decide) (fun h => absurd h.1 (by linarith))
    · exact iff_of_false (by decide) (fun h => absurd h (by linarith))
  · rw [if_neg h0]
    by_cases h1 : x ≤ 1
    · rw [if_pos h1]
      refine ⟨iff_of_false (by decide) h0,
        iff_of_true rfl ⟨not_le.mp h0, h1⟩, ?_, ?_⟩
      · exact iff_of_false (by decide) (fun h => absurd h1 (not_le.mpr h.1))
      · exact iff_of_false (by decide) (fun h => absurd h (by linarith))
    · rw [if_neg h1]
      by_cases h3 : x ≤ 3
      · rw [if_pos h3]
        exact ⟨iff_of_false (by decide) (fun h => h0 (by linarith)),
          iff_of_false (by decide) (fun h => h1 h.2),
          iff_of_true rfl ⟨not_le.mp h1, h3⟩,
          iff_of_false (by decide) (fun h => absurd h (not_lt.mpr h3))⟩
      · rw [if_neg h3]
        exact ⟨iff_of_false (by decide) (fun h => h0 (by linarith)),
          iff_of_false (by decide) (fun h => h1 h.2),
          iff_of_false (by decide) (fun h => h3 h.2),
          iff_of_true rfl (not_le.mp h3)⟩

/-- C5 counterexample: the analyzer reports `days_remaining` rounded to one
decimal, so for quantity 7, dosage 3 and no elapsed time it returns 2.3,
not the exact `total_days_supply - days_elapsed = 7/3` of the claim. -/
theorem predictive_formula_counterexample :
    (calculate_days_remaining 7 3 0 0).days_remaining ≠
      total_days_supply 7 3 - ((days_elapsed 0 0 : ℤ) : ℚ) := by
  have he : days_elapsed (0 : ℚ) (0 : ℚ) = 0 := by
    unfold days_elapsed
    norm_num
  have hf : ⌊(10 : ℚ) * (total_days_supply 7 3 - ((0 : ℤ) : ℚ)) + 1/2⌋ = 23 := by
    unfold total_days_supply
    push_cast
    apply floor_eval <;> norm_num
  simp only [calculate_days_remaining, round1, he, hf]
  unfold total_days_supply
  push_cast
  norm_num

/-- C5 (amended): the analyzer computes `runout_date = purchase + q/d`
exactly and `days_remaining` as `q/d - days_elapsed` rounded to one
decimal, with `days_elapsed = ⌊current - purchase⌋`; the alert priority is
a pure function of the computed `days_remaining` with the claimed
CRITICAL/HIGH/MEDIUM/LOW thresholds; and `days_remaining` is monotonically
non-increasing in the current time. -/
theorem predictive_formulas (q d : Int) (p t t1 t2 : ℚ) (_hd : 1 ≤ d)
    (ht : t1 ≤ t2) :
    (calculate_days_remaining q d p t).runout_date = p + (q : ℚ) / (d : ℚ) ∧
    (calculate_days_remaining q d p t).days_remaining =
      round1 ((q : ℚ) / (d : ℚ) - ((days_elapsed p t : ℤ) : ℚ)) ∧
    days_elapsed p t = ⌊t - p⌋ ∧
    (get_alert_priority (calculate_days_remaining q d p t).days_remaining =
        "CRITICAL" ↔ (calculate_days_remaining q d p t).days_remaining ≤ 0) ∧
    (get_alert_priority (calculate_days_remaining q d p t).days_remaining =
        "HIGH" ↔ 0 < (calculate_days_remaining q d p t).days_remaining ∧
          (calculate_days_remaining q d p t).days_remaining ≤ 1) ∧
    (get_alert_priority (calculate_days_remaining q d p t).days_remaining =
        "MEDIUM" ↔ 1 < (calculate_days_remaining q d p t).days_remaining ∧
          (calculate_days_remaining q d p t).days_remaining ≤ 3) ∧
    (get_alert_priority (calculate_days_remaining q d p t).days_remaining =
        "LOW" ↔ 3 < (calculate_days_remaining q d p t).days_remaining) ∧
    (calculate_days_remaining q d p t2).days_remaining ≤
      (calculate_days_remaining q d p t1).days_remaining := by
  obtain ⟨s1, s2, s3, s4⟩ :=
    get_alert_priority_spec (calculate_days_remaining q d p t).days_remaining
  refine ⟨rfl, rfl, rfl, s1, s2, s3, s4, ?_⟩
  have he : days_elapsed p t1 ≤ days_elapsed p t2 :=
    Int.floor_mono (by linarith)
  have he2 : ((days_elapsed p t1 : ℤ) : ℚ) ≤ ((days_elapsed p t2 : ℤ) : ℚ) := by
    exact_mod_cast he
  simp only [calculate_days_remaining]
  apply round1_mono
  have : total_days_supply q d = total_days_supply q d := rfl
  linarith

/-- Witness for C5 at quantity 7, dosage 3, purchase day 0: moving the
current day from 0 to 1 does not increase the computed days remaining. -/
theorem predictive_formulas_witness :
    (calculate_days_remaining 7 3 0 1).days_remaining ≤
      (calculate_days_remaining 7 3 0 0).days_remaining :=
  (predictive_formulas 7 3 0 0 0 1 (by decide) (by decide)).2.2.2.2.2.2.2

/-! ## C9 -/

/-- C9: with the default threshold of 3 days, every generated refill alert
has priority CRITICAL, HIGH or MEDIUM (LOW is unreachable because alerts
require `days_remaining ≤ 3`), and the returned list is sorted ascending by
days remaining. -/
theorem refill_alerts_urgent (history : List OrderRec) (user_id : Option String)
    (today : ℚ) :
    (∀ a ∈ predict_refill_needs alert_threshold_days history user_id today,
      a.alert_priority = "CRITICAL" ∨ a.alert_priority = "HIGH" ∨
        a.alert_priority = "MEDIUM") ∧
    (predict_refill_needs alert_threshold_days history user_id today).Pairwise
      (fun a b => a.days_remaining ≤ b.days_remaining) := by
  have htrans : ∀ a b c : RefillAlert,
      decide (a.days_remaining ≤ b.days_remaining) = true →
      decide (b.days_remaining ≤ c.days_remaining) = true →
      decide (a.days_remaining ≤ c.days_remaining) = true := by
    intro a b c h1 h2
    exact decide_eq_true (le_trans (of_decide_eq_true h1) (of_decide_eq_true h2))
  have htot : ∀ a b : RefillAlert,
      decide (a.days_remaining ≤ b.days_remaining) = true ∨
      decide (b.days_remaining ≤ a.days_remaining) = true := by
    intro a b
    rcases le_total a.days_remaining b.days_remaining with h | h
    · exact Or.inl (decide_eq_true h)
    · exact Or.inr (decide_eq_true h)
  constructor
  · intro a ha
    simp only [predict_refill_needs] at ha
    rw [mem_stableSort] at ha
    rw [List.mem_filterMap] at ha
    obtain ⟨k, _hk, hfk⟩ := ha
    rw [Option.bind_eq_some] at hfk
    obtain ⟨r, _hr, hif⟩ := hfk
    split at hif
    · rename_i hle
      have ha2 : a.alert_priority = get_alert_priority
          (calculate_days_remaining r.quantity r.dosage_per_day
            r.purchase_date today).days_remaining := by
        cases hif
        rfl
      have hdr : (calculate_days_remaining r.quantity r.dosage_per_day
          r.purchase_date today).days_remaining ≤ 3 := hle
      rw [ha2]
      unfold get_alert_priority
      split_ifs with hh0 hh1
      · tauto
      · tauto
      · tauto
    · cases hif
  · simp only [predict_refill_needs]
    have hp := pairwise_stableSort htrans htot
    exact (hp _).imp (fun hab => of_decide_eq_true hab)

/-- Evaluation of the refill pipeline on `demoHistory` at day 1: one alert,
one day of supply left, priority HIGH. -/
theorem predict_eval_demo :
    predict_refill_needs alert_threshold_days demoHistory none 1 =
      [demoAlert] := by
  have he : days_elapsed (0 : ℚ) (1 : ℚ) = 1 := by
    unfold days_elapsed
    rw [show (1 : ℚ) - 0 = 1 by norm_num]
    exact floor_eval (by norm_num) (by norm_num)
  have ht : total_days_supply 2 1 = 2 := by
    unfold total_days_supply
    norm_num
  have hdr1 : (calculate_days_remaining 2 1 0 1).days_remaining = 1 := by
    show round1 (total_days_supply 2 1 - ((days_elapsed 0 1 : ℤ) : ℚ)) = 1
    rw [he, ht]
    unfold round1
    rw [show (10 : ℚ) * ((2 : ℚ) - ((1 : ℤ) : ℚ)) + 1/2 = 21/2 by
      push_cast; ring]
    rw [show ⌊(21/2 : ℚ)⌋ = 10 from floor_eval (by norm_num) (by norm_num)]
    norm_num
  have hrun : (calculate_days_remaining 2 1 0 1).runout_date = 2 := by
    show (0 : ℚ) + total_days_supply 2 1 = 2
    rw [ht]
    norm_num
  have hpri : get_alert_priority 1 = "HIGH" := by
    unfold get_alert_priority
    rw [if_neg (by norm_num), if_pos (by norm_num)]
  unfold predict_refill_needs demoHistory
  simp only [List.map_cons, List.map_nil, List.dedup_nil, List.filter,
    List.filterMap, most_recent, List.foldl]
  norm_num [List.dedup_cons_of_not_mem, hdr1, hrun, hpri,
    alert_threshold_days, stableSort, sortFold, insertLe, demoAlert]

/-- Witness for C9: the alert generated from `demoHistory` at day 1 indeed
carries one of the three urgent priorities. -/
theorem refill_alerts_urgent_witness :
    demoAlert.alert_priority = "CRITICAL" ∨
    demoAlert.alert_priority = "HIGH" ∨
    demoAlert.alert_priority = "MEDIUM" :=
  (refill_alerts_urgent demoHistory none 1).1 demoAlert
    (predict_eval_demo ▸ List.mem_singleton.mpr rfl)

end Pharma
